import Mathlib

/-!
# Verification of the GOLDBEES trading-loop core (`generator.py`)

Shallow embedding of the trading decision engine of `generator.py`:
strategy constants, the cash-delta band table and sizing function,
quote-field extraction, the pending-order resolution heuristic, the
entry/exit rule evaluation, and the per-tick state transition of
`run_live_loop`.

Python floats are modelled by exact rationals (`ℚ`); Python `int` share
counts by `ℕ`/`ℤ` as appropriate.  A Python expression that can raise and
is caught (returning a default) is modelled by the corresponding total
function; an expression whose exception propagates is modelled with
`Except`.  Timestamps are modelled as rational "seconds" values; each tick
observes one current time `now` (the source re-reads the wall clock a few
times within a tick, but the claims under study do not depend on those
sub-second differences).
-/

namespace Generator

/-! ## Strategy constants (generator.py lines 59-64, percent units) -/

def BUY_THRESHOLD : ℚ := -29/100
def PROFIT_TARGET : ℚ := 4
def STOP_LOSS : ℚ := -1
def TRAILING_DRAWDOWN : ℚ := 30/100
def MIN_DAYS : ℚ := 0
def MAX_DAYS : ℚ := 5

/-! ## Dynamic delta table (generator.py lines 180-201) -/

/-- `CASH_DELTA_BANDS`: the `(lo, hi, delta)` triples, exactly as in the
source (fractions written as exact rationals). -/
def CASH_DELTA_BANDS : List (ℚ × ℚ × ℚ) :=
  [ (0, 1000, 78/10000),
    (1001, 3000, 53/10000),
    (3001, 5000, 44/10000),
    (5001, 10000, 40/10000),
    (10001, 50000, 33/10000),
    (50001, 100000, 28/10000),
    (100001, 500000, 23/10000),
    (500001, 1000000, 24/10000),
    (1000001, 10000000, 25/10000) ]

/-- The `for lo, hi, delta in CASH_DELTA_BANDS: if lo <= c <= hi: return delta`
scan of `get_delta_for_cash`. -/
def findBand : List (ℚ × ℚ × ℚ) → ℚ → Option ℚ
  | [], _ => none
  | (lo, hi, delta) :: rest, c =>
      if lo ≤ c ∧ c ≤ hi then some delta else findBand rest c

/-- `get_delta_for_cash` (generator.py lines 192-201): first matching band
wins; unmatched cash gets the fixed fallback `0.0030`. -/
def get_delta_for_cash (cash_amount : ℚ) : ℚ :=
  match findBand CASH_DELTA_BANDS cash_amount with
  | some delta => delta
  | none => 30/10000

/-! ## Sizing and percent helpers (generator.py lines 357-382) -/

/-- `compute_shares_to_buy` (generator.py lines 369-382):
`Q = floor(C / (P * (1 + δ)))`, 0 when the price is non-positive, clamped
to be non-negative. -/
def compute_shares_to_buy (cash_amount last_price : ℚ) : ℤ :=
  if last_price ≤ 0 then 0
  else
    let delta := get_delta_for_cash cash_amount
    let denom := last_price * (1 + delta)
    let qty : ℤ := if 0 < denom then ⌊cash_amount / denom⌋ else 0
    max 0 qty

/-! ## Python dynamic values

Quote payload fields are dynamically typed in the source; `PyVal` models
the cases the extraction code distinguishes: `None`, a number, a string.
Python `float(s)` on a string is modelled by `str_to_float`; the model
parses integer literals, which covers every string the claims exercise
(the literal `"0"` and non-numeric strings); other numeric spellings are
not needed by any claim. -/

inductive PyVal where
  | pynone : PyVal
  | num : ℚ → PyVal
  | str : String → PyVal
deriving DecidableEq

/-- Model of Python `float(s)` for strings (integer literals only; see the
section comment). -/
def str_to_float (s : String) : Option ℚ :=
  (s.toInt?).map (fun n => (n : ℚ))

/-- `calculate_price_change_pct` (generator.py lines 363-367) over dynamic
operands: Python evaluates `(last - prev) / prev * 100.0` and any
exception (ZeroDivisionError for `prev == 0`, TypeError for non-numeric
operands) is caught and `0.0` returned. -/
def calculate_price_change_pct : PyVal → PyVal → ℚ
  | .num last, .num prev => if prev = 0 then 0 else (last - prev) / prev * 100
  | _, _ => 0

/-- The return-versus-entry computation used both for the open-position
return (generator.py lines 673-676) and for `pnl_pct` on a SELL fill
(lines 596-599): `(price - BUY_PRICE) / BUY_PRICE * 100.0` with
ZeroDivisionError caught to `0.0`. -/
def current_return_pct (last_price buy_price : ℚ) : ℚ :=
  if buy_price = 0 then 0 else (last_price - buy_price) / buy_price * 100

/-! ## Previous-close extraction (generator.py lines 402-416, 543-565)

The result type records whether the Python code returns a value
(`Except.ok`) or lets an exception propagate (`Except.error`): inside
`safe_float(v, None)`, a failing `float(v)` falls back to `float(None)`,
which itself raises. -/

/-- The quote fields `extract_previous_close` examines, in source order:
`previous_close`, `prev_close`, then `ohlc.previous_close`,
`ohlc.prev_close`, `ohlc.close`.  A missing key reads as `pynone`. -/
structure Quote where
  previous_close : PyVal
  prev_close : PyVal
  ohlc_previous_close : PyVal
  ohlc_prev_close : PyVal
  ohlc_close : PyVal
deriving DecidableEq

/-- Python `v not in (None, 0, "0")`: membership is by `==`, so the number
`0` (or `0.0`) and the literal string `"0"` are treated as absent. -/
def presentVal (v : PyVal) : Bool :=
  match v with
  | .pynone => false
  | .num q => decide (q ≠ 0)
  | .str s => decide (s ≠ "0")

/-- `safe_float(v, None)` as called on a field that passed `presentVal`:
a coercible value is returned; a non-coercible one makes `safe_float`
evaluate `float(None)`, which raises. -/
def coerceExplicit (v : PyVal) : Except Unit ℚ :=
  match v with
  | .num q => .ok q
  | .str s =>
      match str_to_float s with
      | some q => .ok q
      | none => .error ()
  | .pynone => .error ()

/-- `extract_previous_close` (generator.py lines 402-416). -/
def extract_previous_close (q : Quote) : Except Unit (Option ℚ) :=
  if presentVal q.previous_close then (coerceExplicit q.previous_close).map some
  else if presentVal q.prev_close then (coerceExplicit q.prev_close).map some
  else if presentVal q.ohlc_previous_close then (coerceExplicit q.ohlc_previous_close).map some
  else if presentVal q.ohlc_prev_close then (coerceExplicit q.ohlc_prev_close).map some
  else if presentVal q.ohlc_close then (coerceExplicit q.ohlc_close).map some
  else .ok none

/-- The daily-candle fallback try-block (generator.py lines 546-560): the
assignment `prev_close = safe_float(candles[-2][4], None)` when the
historical request succeeds, `candles` has at least two entries, and the
close field coerces; any exception in the block is caught, leaving
`prev_close` unassigned (`none` here).  `hist = none` models a failing
API call or a payload without a `candles` list. -/
def fallback_prev_close (hist : Option (List (List PyVal))) : Option ℚ :=
  match hist with
  | none => none
  | some candles =>
      if 2 ≤ candles.length then
        match (candles.get? (candles.length - 2)).bind (fun c => c.get? 4) with
        | some (.num q) => some q
        | some (.str s) => str_to_float s
        | _ => none
      else none

/-- The loop driver's previous-close resolution (generator.py lines
543-565): extract from the quote; if the result `is in (None, 0.0)` run
the daily fallback; finally skip the tick (`ok none`) when the value is
still `None` or `== 0`. -/
def resolve_prev_close (q : Quote) (hist : Option (List (List PyVal))) :
    Except Unit (Option ℚ) :=
  match extract_previous_close q with
  | .error e => .error e
  | .ok pc0 =>
      let pc1 : Option ℚ :=
        if pc0 = none ∨ pc0 = some 0 then
          match fallback_prev_close hist with
          | some p => some p
          | none => pc0
        else pc0
      .ok (if pc1 = none ∨ pc1 = some 0 then none else pc1)


/-! ## Exit-rule evaluation (generator.py lines 683-695) -/

inductive ExitReason where
  | stop_loss : ExitReason
  | profit_target : ExitReason
  | trailing_drawdown : ExitReason
deriving DecidableEq

/-- The exit-rule cascade of the SELL logic, given the current return, the
fractional held days and the (already updated) peak return. -/
def evalExit (cur held_days peak : ℚ) : Option ExitReason :=
  if cur ≤ STOP_LOSS ∧ (MAX_DAYS : ℚ) ≤ held_days then some .stop_loss
  else if PROFIT_TARGET ≤ cur ∧ (MIN_DAYS : ℚ) ≤ held_days then some .profit_target
  else if TRAILING_DRAWDOWN ≤ |peak - cur| ∧ (MAX_DAYS : ℚ) ≤ held_days then
    some .trailing_drawdown
  else none

/-! ## Order state machine and per-tick transition (generator.py 430-724) -/

inductive Side where
  | buy : Side
  | sell : Side
deriving DecidableEq

/-- `PENDING_ORDER` dict (generator.py line 92). -/
structure PendingOrder where
  side : Side
  qty : ℕ
  price : ℚ
  placed_at : ℚ
deriving DecidableEq

/-- The row appended to the trade ledger on a SELL fill (generator.py
lines 602-613), restricted to its numeric content. -/
structure TradeRecord where
  buy_price : ℚ
  sell_price : ℚ
  shares : ℕ
  pnl_amt : ℚ
  pnl_pct : ℚ
  final_capital : ℚ
deriving DecidableEq

/-- The module-level mutable state of the loop: `CASH`, `SHARES_HELD`,
`BUY_PRICE`, `ENTRY_DATE`, `PEAK_RETURN`, `PENDING_ORDER` (generator.py
lines 85-92). -/
structure State where
  cash : ℚ
  shares_held : ℕ
  buy_price : ℚ
  entry_date : Option ℚ
  peak_return : Option ℚ
  pending : Option PendingOrder
deriving DecidableEq

/-- Observable outcome of the pending-order heuristic on one tick,
matching the branches (and log lines) of generator.py 570-628. -/
inductive Resolution where
  | idle : Resolution
  | waiting : Resolution
  | filled : Resolution
  | expired : Resolution
deriving DecidableEq

/-- Pending-order heuristic fill check (generator.py lines 570-628):
age `>= 2` seconds means filled; `filled or age > 120` resolves the order
(clearing the pending slot), the not-filled arm being the expired case;
otherwise everything is left untouched. -/
def processPending (st : State) (now : ℚ) : State × Option TradeRecord × Resolution :=
  match st.pending with
  | none => (st, none, .idle)
  | some po =>
      let age := now - po.placed_at
      if 2 ≤ age ∨ 120 < age then
        if 2 ≤ age then
          match po.side with
          | .buy =>
              if st.shares_held = 0 then
                let nonlocal_cash := st.cash - (po.qty * po.price)
                ({ cash := max 0 nonlocal_cash, shares_held := po.qty,
                   buy_price := po.price, entry_date := some now,
                   peak_return := none, pending := none }, none, .filled)
              else ({ st with pending := none }, none, .filled)
          | .sell =>
              if 0 < st.shares_held then
                let proceeds := st.shares_held * po.price
                let profit_amt := proceeds - st.shares_held * st.buy_price
                let new_cash := st.cash + proceeds
                ({ cash := new_cash, shares_held := 0, buy_price := 0,
                   entry_date := none, peak_return := none, pending := none },
                 some { buy_price := st.buy_price, sell_price := po.price,
                        shares := st.shares_held, pnl_amt := profit_amt,
                        pnl_pct := current_return_pct po.price st.buy_price,
                        final_capital := new_cash }, .filled)
              else ({ st with pending := none }, none, .filled)
        else ({ st with pending := none }, none, .expired)
      else (st, none, .waiting)

/-- Per-tick oracle inputs: the tick time, the resolved prices, the
result of `get_cash_balance()` before a BUY (`none` = the call raised,
i.e. `CashFetchFailed`), and whether each `place_order` call succeeds. -/
structure TickInput where
  now : ℚ
  last_price : ℚ
  prev_close : ℚ
  cash_refresh : Option ℚ
  buy_order_ok : Bool
  sell_order_ok : Bool
deriving DecidableEq

/-- BUY logic (generator.py lines 631-663): entry gate, cash refresh
(leaving `CASH` unchanged when the fetch raises), sizing, and pending
registration when the order call succeeds. -/
def buyPhase (st : State) (inp : TickInput) (price_change_pct : ℚ) : State :=
  if st.shares_held = 0 ∧ st.pending = none ∧ price_change_pct ≤ BUY_THRESHOLD then
    let cash :=
      match inp.cash_refresh with
      | some c => c
      | none => st.cash
    let shares_to_buy := compute_shares_to_buy cash inp.last_price
    if shares_to_buy ≤ 0 then { st with cash := cash }
    else if inp.buy_order_ok then
      { st with
        cash := cash
        pending := some { side := .buy, qty := shares_to_buy.toNat,
                          price := inp.last_price, placed_at := inp.now } }
    else { st with cash := cash }
  else st

/-- SELL logic (generator.py lines 666-716): peak update, exit-rule
cascade, pending registration when the order call succeeds. -/
def sellPhase (st : State) (inp : TickInput) : State :=
  if 0 < st.shares_held ∧ st.pending = none then
    let held_days :=
      match st.entry_date with
      | some e => (inp.now - e) / 86400
      | none => (0 : ℚ)
    let cur := current_return_pct inp.last_price st.buy_price
    let peak :=
      match st.peak_return with
      | none => cur
      | some p => max p cur
    let st1 := { st with peak_return := some peak }
    match evalExit cur held_days peak with
    | some _ =>
        if inp.sell_order_ok then
          { st1 with pending := some { side := .sell, qty := st.shares_held,
                                       price := inp.last_price, placed_at := inp.now } }
        else st1
    | none => st1
  else st

/-- One full decision tick of `run_live_loop` after quote resolution:
percent change, pending-order processing, BUY logic, SELL logic.
Returns the new state and the emitted trade record, if any. -/
def tick (st : State) (inp : TickInput) : State × Option TradeRecord :=
  let price_change_pct :=
    calculate_price_change_pct (.num inp.last_price) (.num inp.prev_close)
  let res := processPending st inp.now
  let st2 := buyPhase res.1 inp price_change_pct
  let st3 := sellPhase st2 inp
  (st3, res.2.1)

/-- States of the trading loop: the startup path always leaves
`PENDING_ORDER = None` (whatever cash/holdings initialisation produced),
and every further state arises by a tick. -/
inductive Reachable : State → Prop where
  | init : ∀ s : State, s.pending = none → Reachable s
  | step : ∀ (s : State) (inp : TickInput), Reachable s → Reachable (tick s inp).1

/-- The pending/position exclusivity invariant of claim C1. -/
def PendingInv (s : State) : Prop :=
  ∀ po, s.pending = some po →
    (po.side = Side.buy → s.shares_held = 0) ∧
    (po.side = Side.sell → 0 < s.shares_held)

/-! ## Concrete states and inputs used by the witness theorems -/

/-- A startup state: flat position, ₹45000 cash, nothing pending. -/
def exampleState : State :=
  { cash := 45000, shares_held := 0, buy_price := 0,
    entry_date := none, peak_return := none, pending := none }

/-- A tick whose percent change (-25%) triggers the entry rule, with a
successful cash refresh. -/
def exampleBuyTick : TickInput :=
  { now := 0, last_price := 150, prev_close := 200,
    cash_refresh := some 45000, buy_order_ok := true, sell_order_ok := true }

/-- The same entry-triggering tick, but the cash-balance refresh raises. -/
def refreshFailTick : TickInput :=
  { now := 0, last_price := 150, prev_close := 200,
    cash_refresh := none, buy_order_ok := true, sell_order_ok := true }

/-- A state holding 3 shares bought at 100 with a pending SELL at
reference price 104, placed at time 0. -/
def exampleSellState : State :=
  { cash := 100, shares_held := 3, buy_price := 100,
    entry_date := some 0, peak_return := some 4,
    pending := some { side := Side.sell, qty := 3, price := 104, placed_at := 0 } }

/-- A flat state with zero cash (as after a failed initial cash fetch). -/
def zeroCashState : State :=
  { cash := 0, shares_held := 0, buy_price := 0,
    entry_date := none, peak_return := none, pending := none }

/-- A quote carrying an explicit negative previous close. -/
def negQuote : Quote :=
  { previous_close := .num (-5), prev_close := .pynone,
    ohlc_previous_close := .pynone, ohlc_prev_close := .pynone,
    ohlc_close := .pynone }

/-- A quote each of whose previous-close fields is one of the "absent"
spellings `None`, `0`, `"0"`. -/
def absentQuote : Quote :=
  { previous_close := .num 0, prev_close := .str "0",
    ohlc_previous_close := .pynone, ohlc_prev_close := .num 0,
    ohlc_close := .str "0" }

/-! ## Helper lemmas -/

lemma findBand_pos : ∀ (l : List (ℚ × ℚ × ℚ)) (c d : ℚ),
    (∀ e ∈ l, 0 < e.2.2) → findBand l c = some d → 0 < d := by
  intro l
  induction l with
  | nil => intro c d _ h; simp [findBand] at h
  | cons hd tl ih =>
      intro c d hall h
      obtain ⟨lo, hi, del⟩ := hd
      simp only [findBand] at h
      split_ifs at h with hcond
      · obtain rfl := Option.some_inj.mp h
        exact hall _ (List.mem_cons_self _ _)
      · exact ih c d (fun e he => hall e (List.mem_cons_of_mem _ he)) h

lemma get_delta_pos (c : ℚ) : 0 < get_delta_for_cash c := by
  unfold get_delta_for_cash
  cases h : findBand CASH_DELTA_BANDS c with
  | none => norm_num
  | some d =>
      have hmem : ∀ e ∈ CASH_DELTA_BANDS, 0 < e.2.2 := by
        intro e he
        fin_cases he <;> norm_num
      exact findBand_pos CASH_DELTA_BANDS c d hmem h

lemma compute_shares_nonneg (cash price : ℚ) : 0 ≤ compute_shares_to_buy cash price := by
  unfold compute_shares_to_buy
  split_ifs <;> simp


lemma processPending_idle (st : State) (now : ℚ) (hpo : st.pending = none) :
    processPending st now = (st, none, Resolution.idle) := by
  unfold processPending
  simp only [hpo]

lemma processPending_waiting (st : State) (now : ℚ) (po : PendingOrder)
    (hpo : st.pending = some po) (hage : now - po.placed_at < 2) :
    processPending st now = (st, none, Resolution.waiting) := by
  unfold processPending
  simp only [hpo]
  rw [if_neg]
  rintro (h | h) <;> linarith

lemma processPending_buy_fill (st : State) (now : ℚ) (po : PendingOrder)
    (hpo : st.pending = some po) (hside : po.side = Side.buy)
    (hsh : st.shares_held = 0) (hage : 2 ≤ now - po.placed_at) :
    processPending st now =
      ({ cash := max 0 (st.cash - po.qty * po.price), shares_held := po.qty,
         buy_price := po.price, entry_date := some now, peak_return := none,
         pending := none }, none, Resolution.filled) := by
  unfold processPending
  simp only [hpo, hside]
  rw [if_pos (Or.inl hage), if_pos hage, if_pos hsh]

lemma processPending_sell_fill (st : State) (now : ℚ) (po : PendingOrder)
    (hpo : st.pending = some po) (hside : po.side = Side.sell)
    (hsh : 0 < st.shares_held) (hage : 2 ≤ now - po.placed_at) :
    processPending st now =
      ({ cash := st.cash + st.shares_held * po.price, shares_held := 0,
         buy_price := 0, entry_date := none, peak_return := none, pending := none },
       some { buy_price := st.buy_price, sell_price := po.price,
              shares := st.shares_held,
              pnl_amt := st.shares_held * po.price - st.shares_held * st.buy_price,
              pnl_pct := current_return_pct po.price st.buy_price,
              final_capital := st.cash + st.shares_held * po.price },
       Resolution.filled) := by
  unfold processPending
  simp only [hpo, hside]
  rw [if_pos (Or.inl hage), if_pos hage, if_pos hsh]

lemma processPending_buy_fill_skip (st : State) (now : ℚ) (po : PendingOrder)
    (hpo : st.pending = some po) (hside : po.side = Side.buy)
    (hsh : ¬ st.shares_held = 0) (hage : 2 ≤ now - po.placed_at) :
    processPending st now = ({ st with pending := none }, none, Resolution.filled) := by
  unfold processPending
  simp only [hpo, hside]
  rw [if_pos (Or.inl hage), if_pos hage, if_neg hsh]

lemma processPending_sell_fill_skip (st : State) (now : ℚ) (po : PendingOrder)
    (hpo : st.pending = some po) (hside : po.side = Side.sell)
    (hsh : ¬ 0 < st.shares_held) (hage : 2 ≤ now - po.placed_at) :
    processPending st now = ({ st with pending := none }, none, Resolution.filled) := by
  unfold processPending
  simp only [hpo, hside]
  rw [if_pos (Or.inl hage), if_pos hage, if_neg hsh]

lemma processPending_state_cases (st : State) (now : ℚ) :
    (processPending st now).1.pending = none ∨ (processPending st now).1 = st := by
  cases hpo : st.pending with
  | none => right; rw [processPending_idle st now hpo]
  | some po =>
      by_cases hage : 2 ≤ now - po.placed_at
      · cases hside : po.side with
        | buy =>
            by_cases hsh : st.shares_held = 0
            · left; rw [processPending_buy_fill st now po hpo hside hsh hage]
            · left; rw [processPending_buy_fill_skip st now po hpo hside hsh hage]
        | sell =>
            by_cases hsh : 0 < st.shares_held
            · left; rw [processPending_sell_fill st now po hpo hside hsh hage]
            · left; rw [processPending_sell_fill_skip st now po hpo hside hsh hage]
      · right
        rw [processPending_waiting st now po hpo (by linarith [not_le.mp hage])]


lemma buyPhase_shares (s : State) (inp : TickInput) (pct : ℚ) :
    (buyPhase s inp pct).shares_held = s.shares_held := by
  simp only [buyPhase]
  split_ifs <;> rfl

lemma buyPhase_pending_cases (s : State) (inp : TickInput) (pct : ℚ) :
    (buyPhase s inp pct).pending = s.pending ∨
    (s.shares_held = 0 ∧
      ∃ po : PendingOrder, po.side = Side.buy ∧ (buyPhase s inp pct).pending = some po) := by
  simp only [buyPhase]
  split_ifs with hg hq hok
  · left; rfl
  · right; exact ⟨hg.1, _, rfl, rfl⟩
  · left; rfl
  · left; rfl

lemma buyPhase_of_pending (s : State) (inp : TickInput) (pct : ℚ) (po : PendingOrder)
    (hpo : s.pending = some po) : buyPhase s inp pct = s := by
  unfold buyPhase
  rw [if_neg]
  rintro ⟨-, h2, -⟩
  rw [hpo] at h2
  exact Option.noConfusion h2

lemma sellPhase_shares (s : State) (inp : TickInput) :
    (sellPhase s inp).shares_held = s.shares_held := by
  simp only [sellPhase]
  split_ifs <;> first | rfl | (split <;> rfl)

lemma sellPhase_pending_cases (s : State) (inp : TickInput) :
    (sellPhase s inp).pending = s.pending ∨
    (0 < s.shares_held ∧
      ∃ po : PendingOrder, po.side = Side.sell ∧ (sellPhase s inp).pending = some po) := by
  simp only [sellPhase]
  split_ifs with hg hok
  · split
    · right; exact ⟨hg.1, _, rfl, rfl⟩
    · left; rfl
  · split <;> (left; rfl)
  · left; rfl

lemma sellPhase_of_pending (s : State) (inp : TickInput) (po : PendingOrder)
    (hpo : s.pending = some po) : sellPhase s inp = s := by
  unfold sellPhase
  rw [if_neg]
  rintro ⟨-, h2⟩
  rw [hpo] at h2
  exact Option.noConfusion h2

lemma pendingInv_of_none {s : State} (h : s.pending = none) : PendingInv s := by
  intro po hpo
  rw [h] at hpo
  exact Option.noConfusion hpo

lemma buyPhase_inv (s : State) (inp : TickInput) (pct : ℚ) (h : PendingInv s) :
    PendingInv (buyPhase s inp pct) := by
  rcases buyPhase_pending_cases s inp pct with hp | ⟨h0, po, hside, hp⟩
  · intro q hq
    rw [hp] at hq
    have hq2 := h q hq
    rw [buyPhase_shares]
    exact hq2
  · intro q hq
    rw [hp] at hq
    obtain rfl := Option.some_inj.mp hq
    constructor
    · intro _
      rw [buyPhase_shares]
      exact h0
    · intro hs
      rw [hside] at hs
      exact Side.noConfusion hs

lemma sellPhase_inv (s : State) (inp : TickInput) (h : PendingInv s) :
    PendingInv (sellPhase s inp) := by
  rcases sellPhase_pending_cases s inp with hp | ⟨h0, po, hside, hp⟩
  · intro q hq
    rw [hp] at hq
    have hq2 := h q hq
    rw [sellPhase_shares]
    exact hq2
  · intro q hq
    rw [hp] at hq
    obtain rfl := Option.some_inj.mp hq
    constructor
    · intro hs
      rw [hside] at hs
      exact Side.noConfusion hs
    · intro _
      rw [sellPhase_shares]
      exact h0

lemma tick_inv (s : State) (inp : TickInput) (h : PendingInv s) :
    PendingInv (tick s inp).1 := by
  have h1 : PendingInv (processPending s inp.now).1 := by
    rcases processPending_state_cases s inp.now with hp | hp
    · exact pendingInv_of_none hp
    · rw [hp]; exact h
  exact sellPhase_inv _ _ (buyPhase_inv _ _ _ h1)

lemma reachable_inv (s : State) (hs : Reachable s) : PendingInv s := by
  induction hs with
  | init s h => exact pendingInv_of_none h
  | step s inp _ ih => exact tick_inv s inp ih

lemma tick_unresolved (s : State) (inp : TickInput) (po : PendingOrder)
    (hpo : s.pending = some po) (hage : inp.now - po.placed_at < 2) :
    (tick s inp).1 = s := by
  have h1 := processPending_waiting s inp.now po hpo hage
  show sellPhase (buyPhase (processPending s inp.now).1 inp
      (calculate_price_change_pct (.num inp.last_price) (.num inp.prev_close))) inp = s
  rw [h1]
  show sellPhase (buyPhase s inp
      (calculate_price_change_pct (.num inp.last_price) (.num inp.prev_close))) inp = s
  rw [buyPhase_of_pending s inp _ po hpo, sellPhase_of_pending s inp po hpo]

/-! ## Claim theorems -/

lemma compute_shares_zero_cash (p : ℚ) : compute_shares_to_buy 0 p ≤ 0 := by
  unfold compute_shares_to_buy
  split_ifs <;> simp [zero_div]

/-- Claim C3: position sizing never over-allocates.  For `cash ≥ 0` and
`price > 0`, `size(cash, price) * price * (1 + delta) ≤ cash`; for
`price ≤ 0` the result is 0; the result is always a non-negative integer;
and `size(45000, 150) = 299` with delta `0.0033`. -/
theorem sizing_never_over_allocates (cash price : ℚ) :
    (0 ≤ cash → 0 < price →
      (compute_shares_to_buy cash price : ℚ) * price * (1 + get_delta_for_cash cash) ≤ cash) ∧
    (price ≤ 0 → compute_shares_to_buy cash price = 0) ∧
    0 ≤ compute_shares_to_buy cash price ∧
    compute_shares_to_buy 45000 150 = 299 ∧
    get_delta_for_cash 45000 = 33/10000 := by
  refine ⟨?_, ?_, compute_shares_nonneg cash price, ?_, ?_⟩
  · intro hc hp
    have hd := get_delta_pos cash
    have hdenom : 0 < price * (1 + get_delta_for_cash cash) :=
      mul_pos hp (by linarith)
    have hval : compute_shares_to_buy cash price
        = ⌊cash / (price * (1 + get_delta_for_cash cash))⌋ := by
      unfold compute_shares_to_buy
      rw [if_neg (not_le.mpr hp)]
      simp only [if_pos hdenom]
      exact max_eq_right (Int.floor_nonneg.mpr (div_nonneg hc hdenom.le))
    rw [hval, mul_assoc]
    exact (le_div_iff₀ hdenom).mp (Int.floor_le _)
  · intro hp
    unfold compute_shares_to_buy
    rw [if_pos hp]
  · norm_num [compute_shares_to_buy, get_delta_for_cash, findBand, CASH_DELTA_BANDS]
  · norm_num [get_delta_for_cash, findBand, CASH_DELTA_BANDS]

theorem sizing_never_over_allocates_witness :
    (compute_shares_to_buy 45000 150 : ℚ) * 150 * (1 + get_delta_for_cash 45000) ≤ 45000 :=
  (sizing_never_over_allocates 45000 150).1 (by norm_num) (by norm_num)

/-- Claim C9 (implicit): the order-expiry branch of the pending-order
heuristic is unreachable — no pending order is ever resolved as expired,
since expiry would require age > 120 while not having been filled
(age < 2). -/
theorem order_expiry_unreachable (st : State) (now : ℚ) :
    (processPending st now).2.2 = Resolution.idle ∨
    (processPending st now).2.2 = Resolution.waiting ∨
    (processPending st now).2.2 = Resolution.filled := by
  cases hpo : st.pending with
  | none =>
      rw [processPending_idle st now hpo]
      simp
  | some po =>
      by_cases hage : 2 ≤ now - po.placed_at
      · cases hside : po.side with
        | buy =>
            by_cases hsh : st.shares_held = 0
            · rw [processPending_buy_fill st now po hpo hside hsh hage]; simp
            · rw [processPending_buy_fill_skip st now po hpo hside hsh hage]; simp
        | sell =>
            by_cases hsh : 0 < st.shares_held
            · rw [processPending_sell_fill st now po hpo hside hsh hage]; simp
            · rw [processPending_sell_fill_skip st now po hpo hside hsh hage]; simp
      · rw [processPending_waiting st now po hpo (by linarith [not_le.mp hage])]
        simp

/-- Claim C10 (implicit): totality of the percent computations —
`calculate_price_change_pct` returns 0 whenever the Python division would
raise (zero previous close, or a non-numeric operand on either side), and
the open-position return is 0 when `buy_price == 0`. -/
theorem percent_computation_total :
    (∀ last : ℚ, calculate_price_change_pct (.num last) (.num 0) = 0) ∧
    (∀ v : PyVal, calculate_price_change_pct v .pynone = 0) ∧
    (∀ v : PyVal, calculate_price_change_pct .pynone v = 0) ∧
    (∀ (v : PyVal) (s : String), calculate_price_change_pct v (.str s) = 0) ∧
    (∀ (s : String) (v : PyVal), calculate_price_change_pct (.str s) v = 0) ∧
    (∀ last : ℚ, current_return_pct last 0 = 0) := by
  refine ⟨?_, ?_, ?_, ?_, ?_, ?_⟩
  · intro l; simp [calculate_price_change_pct]
  · intro v; cases v <;> rfl
  · intro v; cases v <;> rfl
  · intro v s; cases v <;> rfl
  · intro s v; cases v <;> rfl
  · intro l; simp [current_return_pct]

/-- Claim C7 counterexample: the fixed fallback fraction 0.0030 is NOT
strictly larger than the largest tabulated delta fraction — the lowest
band carries 0.0078. -/
theorem delta_fallback_cex :
    (((0 : ℚ), (1000 : ℚ), (78/10000 : ℚ)) ∈ CASH_DELTA_BANDS) ∧
    findBand CASH_DELTA_BANDS 20000000 = none ∧
    get_delta_for_cash 20000000 = 30/10000 ∧
    ¬ ((78/10000 : ℚ) < 30/10000) := by
  refine ⟨by simp [CASH_DELTA_BANDS], ?_, ?_, by norm_num⟩
  · norm_num [findBand, CASH_DELTA_BANDS]
  · norm_num [get_delta_for_cash, findBand, CASH_DELTA_BANDS]

/-- Claim C7 (amended): unmatched cash amounts get the fixed fallback
fraction 0.0030, which is strictly larger than every fraction tabulated
for the bands at or above 50,001 (so cash beyond the table top is sized
more conservatively than those bands) and at least as large as the
smallest tabulated fraction — but smaller than the largest tabulated
fraction 0.0078. -/
theorem delta_fallback_conservatism_amended :
    (∀ c : ℚ, findBand CASH_DELTA_BANDS c = none → get_delta_for_cash c = 30/10000) ∧
    (∀ lo hi f : ℚ, (lo, hi, f) ∈ CASH_DELTA_BANDS → 50001 ≤ lo → f < 30/10000) ∧
    (∀ lo hi f : ℚ, (lo, hi, f) ∈ CASH_DELTA_BANDS → 23/10000 ≤ f) ∧
    (((0 : ℚ), (1000 : ℚ), (78/10000 : ℚ)) ∈ CASH_DELTA_BANDS) ∧
    ((30/10000 : ℚ) < 78/10000) := by
  refine ⟨?_, ?_, ?_, by simp [CASH_DELTA_BANDS], by norm_num⟩
  · intro c h
    unfold get_delta_for_cash
    simp only [h]
  · intro lo hi f hmem hlo
    fin_cases hmem <;> norm_num at hlo ⊢
  · intro lo hi f hmem
    fin_cases hmem <;> norm_num

theorem delta_fallback_conservatism_amended_witness :
    get_delta_for_cash 20000000 = 30/10000 ∧ (28/10000 : ℚ) < 30/10000 := by
  refine ⟨delta_fallback_conservatism_amended.1 20000000 ?_,
    delta_fallback_conservatism_amended.2.1 50001 100000 (28/10000) ?_ ?_⟩
  · norm_num [findBand, CASH_DELTA_BANDS]
  · simp [CASH_DELTA_BANDS]
  · norm_num

/-- Claim C4: resolution of a pending order on a tick.  An order whose age
is at least 2 seconds is filled: a BUY fill (for a flat position) installs
the position at the reference price and debits cash floored at zero; a
SELL fill (for an open position) credits the proceeds, emits one trade
record and empties the position.  An unfilled order older than 120
seconds is discarded as expired with only the pending slot cleared; below
the fill threshold everything is left unchanged. -/
theorem pending_resolution_step (st : State) (now : ℚ) (po : PendingOrder)
    (hpo : st.pending = some po) :
    (2 ≤ now - po.placed_at → po.side = Side.buy → st.shares_held = 0 →
      processPending st now =
        ({ cash := max 0 (st.cash - po.qty * po.price), shares_held := po.qty,
           buy_price := po.price, entry_date := some now, peak_return := none,
           pending := none }, none, Resolution.filled)) ∧
    (2 ≤ now - po.placed_at → po.side = Side.sell → po.qty = st.shares_held →
      0 < st.shares_held →
      processPending st now =
        ({ cash := st.cash + po.qty * po.price, shares_held := 0,
           buy_price := 0, entry_date := none, peak_return := none,
           pending := none },
         some { buy_price := st.buy_price, sell_price := po.price,
                shares := po.qty,
                pnl_amt := po.qty * po.price - po.qty * st.buy_price,
                pnl_pct := current_return_pct po.price st.buy_price,
                final_capital := st.cash + po.qty * po.price },
         Resolution.filled)) ∧
    (¬ 2 ≤ now - po.placed_at → 120 < now - po.placed_at →
      processPending st now = ({ st with pending := none }, none, Resolution.expired)) ∧
    (now - po.placed_at < 2 →
      processPending st now = (st, none, Resolution.waiting)) := by
  refine ⟨?_, ?_, ?_, ?_⟩
  · intro hage hside hsh
    exact processPending_buy_fill st now po hpo hside hsh hage
  · intro hage hside hq hsh
    rw [hq]
    exact processPending_sell_fill st now po hpo hside hsh hage
  · intro h1 h2
    exact absurd (by linarith : (2 : ℚ) ≤ now - po.placed_at) h1
  · intro hage
    exact processPending_waiting st now po hpo hage

theorem pending_resolution_step_witness :
    processPending exampleSellState 5 =
      ({ cash := 412, shares_held := 0, buy_price := 0, entry_date := none,
         peak_return := none, pending := none },
       some { buy_price := 100, sell_price := 104, shares := 3, pnl_amt := 12,
              pnl_pct := 4, final_capital := 412 },
       Resolution.filled) := by
  have h := (pending_resolution_step exampleSellState 5
      { side := Side.sell, qty := 3, price := 104, placed_at := 0 }
      rfl).2.1 (by norm_num) rfl rfl (by decide)
  rw [h]
  norm_num [exampleSellState, current_return_pct]

/-- Claim C8: round-trip PnL exactness.  The trade record emitted by a
SELL fill carries `pnl_amt = shares * (sell_reference_price - buy_price)`
(the code computes `proceeds - shares * buy_price`) and
`pnl_pct = (sell_reference_price - buy_price) / buy_price * 100`. -/
theorem round_trip_pnl_exact (st : State) (now : ℚ) (po : PendingOrder)
    (hpo : st.pending = some po) (hside : po.side = Side.sell)
    (hsh : 0 < st.shares_held) (hage : 2 ≤ now - po.placed_at)
    (hbp : st.buy_price ≠ 0) :
    ((processPending st now).2.1).map TradeRecord.pnl_amt
        = some (st.shares_held * (po.price - st.buy_price)) ∧
    ((processPending st now).2.1).map TradeRecord.pnl_pct
        = some ((po.price - st.buy_price) / st.buy_price * 100) ∧
    ((processPending st now).2.1).map TradeRecord.shares = some st.shares_held := by
  rw [processPending_sell_fill st now po hpo hside hsh hage]
  refine ⟨?_, ?_, rfl⟩
  · show some ((st.shares_held : ℚ) * po.price - (st.shares_held : ℚ) * st.buy_price)
        = some ((st.shares_held : ℚ) * (po.price - st.buy_price))
    congr 1
    ring
  · show some (current_return_pct po.price st.buy_price)
        = some ((po.price - st.buy_price) / st.buy_price * 100)
    congr 1
    unfold current_return_pct
    rw [if_neg hbp]

theorem round_trip_pnl_exact_witness :
    ((processPending exampleSellState 5).2.1).map TradeRecord.pnl_amt = some 12 := by
  have h := (round_trip_pnl_exact exampleSellState 5
      { side := Side.sell, qty := 3, price := 104, placed_at := 0 }
      rfl rfl (by decide) (by norm_num) (by norm_num [exampleSellState])).1
  rw [h]
  norm_num [exampleSellState]

/-- Claim C1: exclusivity invariant of the trading loop.  In every
reachable state a pending BUY exists only with a flat position and a
pending SELL only with an open one (the state holds at most one pending
order by construction), and a tick on which the pending order is too
young to resolve changes nothing — in particular no new order is placed
while one is pending. -/
theorem trading_loop_pending_invariant (s : State) (hs : Reachable s) :
    (∀ po : PendingOrder, s.pending = some po →
        (po.side = Side.buy → s.shares_held = 0) ∧
        (po.side = Side.sell → 0 < s.shares_held)) ∧
    (∀ (inp : TickInput) (po : PendingOrder), s.pending = some po →
        inp.now - po.placed_at < 2 → (tick s inp).1 = s) := by
  refine ⟨reachable_inv s hs, ?_⟩
  intro inp po hpo hage
  exact tick_unresolved s inp po hpo hage

theorem trading_loop_pending_invariant_witness :
    (tick exampleState exampleBuyTick).1.shares_held = 0 := by
  have hpend : (tick exampleState exampleBuyTick).1.pending =
      some { side := Side.buy, qty := 299, price := 150, placed_at := 0 } := by
    norm_num [tick, buyPhase, sellPhase, processPending, exampleState,
      exampleBuyTick, calculate_price_change_pct, BUY_THRESHOLD,
      compute_shares_to_buy, get_delta_for_cash, findBand, CASH_DELTA_BANDS]
    try decide
  exact ((trading_loop_pending_invariant _
      (Reachable.step exampleState exampleBuyTick
        (Reachable.init exampleState rfl))).1 _ hpend).1 rfl

/-- Claim C2: the exit-rule cascade fires exactly the first true rule in
priority order stop-loss, profit-target, trailing-drawdown (with the
constants of the source), holds the position when none fires, and on
buy_price=100, last_price=104, held_days=0 it yields `profit_target`. -/
theorem exit_rule_priority (cur held_days peak : ℚ) :
    (STOP_LOSS = -1 ∧ PROFIT_TARGET = 4 ∧ TRAILING_DRAWDOWN = 3/10 ∧
      MIN_DAYS = 0 ∧ MAX_DAYS = 5) ∧
    (evalExit cur held_days peak = some ExitReason.stop_loss ↔
      cur ≤ STOP_LOSS ∧ MAX_DAYS ≤ held_days) ∧
    (evalExit cur held_days peak = some ExitReason.profit_target ↔
      ¬(cur ≤ STOP_LOSS ∧ MAX_DAYS ≤ held_days) ∧
        PROFIT_TARGET ≤ cur ∧ MIN_DAYS ≤ held_days) ∧
    (evalExit cur held_days peak = some ExitReason.trailing_drawdown ↔
      ¬(cur ≤ STOP_LOSS ∧ MAX_DAYS ≤ held_days) ∧
        ¬(PROFIT_TARGET ≤ cur ∧ MIN_DAYS ≤ held_days) ∧
        TRAILING_DRAWDOWN ≤ |peak - cur| ∧ MAX_DAYS ≤ held_days) ∧
    (evalExit cur held_days peak = none ↔
      ¬(cur ≤ STOP_LOSS ∧ MAX_DAYS ≤ held_days) ∧
        ¬(PROFIT_TARGET ≤ cur ∧ MIN_DAYS ≤ held_days) ∧
        ¬(TRAILING_DRAWDOWN ≤ |peak - cur| ∧ MAX_DAYS ≤ held_days)) ∧
    evalExit (current_return_pct 104 100) 0 (current_return_pct 104 100)
      = some ExitReason.profit_target := by
  refine ⟨by norm_num [STOP_LOSS, PROFIT_TARGET, TRAILING_DRAWDOWN, MIN_DAYS, MAX_DAYS],
    ?_, ?_, ?_, ?_, ?_⟩
  · unfold evalExit; split_ifs with h1 h2 h3 <;> simp_all
  · unfold evalExit; split_ifs with h1 h2 h3 <;> simp_all
  · unfold evalExit; split_ifs with h1 h2 h3 <;> simp_all
  · unfold evalExit; split_ifs with h1 h2 h3 <;> simp_all
  · norm_num [evalExit, current_return_pct, STOP_LOSS, PROFIT_TARGET,
      MIN_DAYS, MAX_DAYS, TRAILING_DRAWDOWN]

/-- Claim C5 counterexample: an explicit negative previous close is
passed through untouched — the resolution yields -5, which is not
positive, and the percent-change division would run with it. -/
theorem prev_close_positive_cex :
    resolve_prev_close negQuote none = .ok (some (-5)) ∧ ¬ ((0 : ℚ) < -5) := by
  refine ⟨?_, by norm_num⟩
  rfl

lemma absent_not_present (v : PyVal)
    (h : v = .pynone ∨ v = .num 0 ∨ v = .str "0") : presentVal v = false := by
  rcases h with h | h | h <;> subst h <;> simp [presentVal]

lemma final_guard (pc1 : Option ℚ) (p : ℚ)
    (h : (if pc1 = none ∨ pc1 = some 0 then none else pc1) = some p) : p ≠ 0 := by
  by_cases hc : pc1 = none ∨ pc1 = some 0
  · rw [if_pos hc] at h
    exact Option.noConfusion h
  · rw [if_neg hc] at h
    intro hp
    subst hp
    exact hc (Or.inr h)

/-- Claim C5 (amended): explicit previous-close values 0, "0" or null are
treated as absent (the extraction yields nothing and the daily fallback is
consulted); if the fallback also produces nothing the tick is skipped; and
whenever resolution does produce a value, that value is NONZERO — though
not necessarily positive — so the percent-change division is only ever
evaluated with `previous_close ≠ 0`. -/
theorem prev_close_resolution_nonzero :
    (∀ q : Quote,
        (q.previous_close = .pynone ∨ q.previous_close = .num 0 ∨ q.previous_close = .str "0") →
        (q.prev_close = .pynone ∨ q.prev_close = .num 0 ∨ q.prev_close = .str "0") →
        (q.ohlc_previous_close = .pynone ∨ q.ohlc_previous_close = .num 0 ∨
          q.ohlc_previous_close = .str "0") →
        (q.ohlc_prev_close = .pynone ∨ q.ohlc_prev_close = .num 0 ∨
          q.ohlc_prev_close = .str "0") →
        (q.ohlc_close = .pynone ∨ q.ohlc_close = .num 0 ∨ q.ohlc_close = .str "0") →
        extract_previous_close q = .ok none) ∧
    (∀ (q : Quote) (hist : Option (List (List PyVal))),
        extract_previous_close q = .ok none → fallback_prev_close hist = none →
        resolve_prev_close q hist = .ok none) ∧
    (∀ (q : Quote) (hist : Option (List (List PyVal))) (p : ℚ),
        resolve_prev_close q hist = .ok (some p) → p ≠ 0) := by
  refine ⟨?_, ?_, ?_⟩
  · intro q h1 h2 h3 h4 h5
    unfold extract_previous_close
    simp [absent_not_present _ h1, absent_not_present _ h2, absent_not_present _ h3,
      absent_not_present _ h4, absent_not_present _ h5]
  · intro q hist hq hf
    unfold resolve_prev_close
    simp [hq, hf]
  · intro q hist p h
    unfold resolve_prev_close at h
    cases hext : extract_previous_close q with
    | error e =>
        rw [hext] at h
        exact absurd h (by simp)
    | ok pc0 =>
        rw [hext] at h
        simp only [Except.ok.injEq] at h
        exact final_guard _ p h

theorem prev_close_resolution_nonzero_witness :
    extract_previous_close absentQuote = .ok none ∧
    resolve_prev_close absentQuote none = .ok none ∧ (100 : ℚ) ≠ 0 := by
  have h1 := prev_close_resolution_nonzero.1 absentQuote
    (Or.inr (Or.inl rfl)) (Or.inr (Or.inr rfl)) (Or.inl rfl)
    (Or.inr (Or.inl rfl)) (Or.inr (Or.inr rfl))
  refine ⟨h1, prev_close_resolution_nonzero.2.1 absentQuote none h1 rfl, ?_⟩
  refine prev_close_resolution_nonzero.2.2
    { previous_close := .num 100, prev_close := .pynone,
      ohlc_previous_close := .pynone, ohlc_prev_close := .pynone,
      ohlc_close := .pynone } none 100 ?_
  rfl

/-- Claim C6 counterexample: with ₹45000 retained from an earlier
successful fetch, a tick whose cash refresh fails still places a BUY
(sized from the stale value), contradicting "sizing is performed as if
available cash were zero". -/
theorem cash_fetch_failed_cex :
    refreshFailTick.cash_refresh = none ∧
    (tick exampleState refreshFailTick).1.pending =
      some { side := Side.buy, qty := 299, price := 150, placed_at := 0 } := by
  refine ⟨rfl, ?_⟩
  norm_num [tick, buyPhase, sellPhase, processPending, exampleState,
    refreshFailTick, calculate_price_change_pct, BUY_THRESHOLD,
    compute_shares_to_buy, get_delta_for_cash, findBand, CASH_DELTA_BANDS]
  try decide

/-- Claim C6 (amended): when the cash refresh raises, `CASH` keeps its
previous value and sizing uses that stale value; a BUY is suppressed only
when the retained value sizes to zero — in particular when no fetch has
ever succeeded and the cash on record is still 0. -/
theorem cash_fetch_failed_stale_cash (s : State) (inp : TickInput) (pct : ℚ)
    (hfail : inp.cash_refresh = none) :
    (buyPhase s inp pct).cash = s.cash ∧
    (compute_shares_to_buy s.cash inp.last_price ≤ 0 →
      (buyPhase s inp pct).pending = s.pending) ∧
    (s.cash = 0 → (buyPhase s inp pct).pending = s.pending) := by
  have h2 : compute_shares_to_buy s.cash inp.last_price ≤ 0 →
      (buyPhase s inp pct).pending = s.pending := by
    intro hle
    simp only [buyPhase, hfail]
    split_ifs with hg
    · rfl
    · rfl
  refine ⟨?_, h2, fun h0 => h2 (by rw [h0]; exact compute_shares_zero_cash inp.last_price)⟩
  simp only [buyPhase, hfail]
  split_ifs <;> rfl

theorem cash_fetch_failed_stale_cash_witness :
    (buyPhase zeroCashState refreshFailTick (-25)).cash = 0 ∧
    (buyPhase zeroCashState refreshFailTick (-25)).pending = none := by
  have h := cash_fetch_failed_stale_cash zeroCashState refreshFailTick (-25) rfl
  exact ⟨h.1, h.2.2 rfl⟩

theorem order_expiry_unreachable_witness :
    (processPending exampleSellState 5).2.2 = Resolution.idle ∨
    (processPending exampleSellState 5).2.2 = Resolution.waiting ∨
    (processPending exampleSellState 5).2.2 = Resolution.filled :=
  order_expiry_unreachable exampleSellState 5

theorem exit_rule_priority_witness :
    evalExit (current_return_pct 104 100) 0 (current_return_pct 104 100)
      = some ExitReason.profit_target :=
  (exit_rule_priority (current_return_pct 104 100) 0
    (current_return_pct 104 100)).2.2.2.2.2

theorem percent_computation_total_witness :
    calculate_price_change_pct (.num 104) (.num 0) = 0 :=
  percent_computation_total.1 104

end Generator
